import Mathlib

/-!
Shallow embedding of libusual's `src/usual/safeio.c` and `src/usual/socket.c`.

The syscalls wrapped by `safeio.c` are modelled by an oracle: a finite list of
`Outcome`s, one per invocation of the underlying syscall.  Each wrapper
consumes outcomes from the front of the list exactly as the C control flow
re-invokes the syscall, and returns `none` when the trace is exhausted (the
loop would have invoked the syscall once more).  Process-wide state visible to
the wrappers (the `cf_verbose` configuration integer and the static buffer
inside `sa2str`) is threaded explicitly as a `GlobalState`.  Log calls and the
`select`-based sleep of `safe_sendmsg` are recorded as a list of `Effect`s.
-/

namespace LibUsual

/-- The errno values that `safeio.c` inspects, plus a catch-all. -/
inductive Errno
  | EINTR
  | EMSGSIZE
  | EINPROGRESS
  | other (n : Nat)
deriving DecidableEq, Repr

/-- Result of one invocation of an underlying syscall: `ok res` models a
return value `res >= 0`; `err e` models a return of `-1` with `errno = e`. -/
inductive Outcome
  | ok (res : Nat)
  | err (e : Errno)
deriving DecidableEq, Repr

/-- Log levels used by `safeio.c` (`log_noise`, `log_warning`, `log_debug`). -/
inductive LogLevel
  | noise
  | warning
  | debug
deriving DecidableEq, Repr

/-- Observable side effects of a wrapper call besides the syscalls themselves:
a log line at some level, or the `select(0, NULL, NULL, NULL, &tv)` sleep of
`safe_sendmsg` with `tv = {sec, usec}`. -/
inductive Effect
  | log (lv : LogLevel) (msg : String)
  | sleep (sec : Nat) (usec : Nat)
deriving DecidableEq, Repr

/-- Process-wide state read or written by the wrappers: the verbosity setting
`cf_verbose` (from `usual/logging.h`) and the `static char buf[256]` inside
`sa2str`. -/
structure GlobalState where
  cf_verbose : Int
  sa2str_buf : String
deriving DecidableEq, Repr

/-- Model of libc `strerror` for the errnos of the model. -/
def strerror : Errno → String
  | Errno.EINTR => "Interrupted system call"
  | Errno.EMSGSIZE => "Message too long"
  | Errno.EINPROGRESS => "Operation now in progress"
  | Errno.other n => "errno " ++ toString n

/-- `int safe_read(int fd, void *buf, int len)`: retry the `read` while it
fails with `EINTR`, return the first other result.  No logging. -/
def safe_read (fd len : Int) (st : GlobalState) :
    List Outcome → Option (Outcome × List Effect × GlobalState)
  | [] => none
  | Outcome.err Errno.EINTR :: rest => safe_read fd len st rest
  | o :: _ => some (o, [], st)

/-- `int safe_write(int fd, const void *buf, int len)`: same EINTR loop. -/
def safe_write (fd len : Int) (st : GlobalState) :
    List Outcome → Option (Outcome × List Effect × GlobalState)
  | [] => none
  | Outcome.err Errno.EINTR :: rest => safe_write fd len st rest
  | o :: _ => some (o, [], st)

/-- `int safe_close(int fd)`: same EINTR loop (non-WIN32 branch). -/
def safe_close (fd : Int) (st : GlobalState) :
    List Outcome → Option (Outcome × List Effect × GlobalState)
  | [] => none
  | Outcome.err Errno.EINTR :: rest => safe_close fd st rest
  | o :: _ => some (o, [], st)

/-- `int safe_recv(int fd, void *buf, int len, int flags)`: EINTR loop, then
`log_noise` on failure, `log_noise` on success only when `cf_verbose > 2`. -/
def safe_recv (fd len flags : Int) (st : GlobalState) :
    List Outcome → Option (Outcome × List Effect × GlobalState)
  | [] => none
  | Outcome.err Errno.EINTR :: rest => safe_recv fd len flags st rest
  | Outcome.err e :: _ =>
      some (Outcome.err e,
        [Effect.log LogLevel.noise
          ("safe_recv(" ++ toString fd ++ ", " ++ toString len ++ ") = " ++ strerror e)],
        st)
  | Outcome.ok n :: _ =>
      some (Outcome.ok n,
        if st.cf_verbose > 2 then
          [Effect.log LogLevel.noise
            ("safe_recv(" ++ toString fd ++ ", " ++ toString len ++ ") = " ++ toString n)]
        else [],
        st)

/-- `int safe_send(int fd, const void *buf, int len, int flags)`: same shape
as `safe_recv`. -/
def safe_send (fd len flags : Int) (st : GlobalState) :
    List Outcome → Option (Outcome × List Effect × GlobalState)
  | [] => none
  | Outcome.err Errno.EINTR :: rest => safe_send fd len flags st rest
  | Outcome.err e :: _ =>
      some (Outcome.err e,
        [Effect.log LogLevel.noise
          ("safe_send(" ++ toString fd ++ ", " ++ toString len ++ ") = " ++ strerror e)],
        st)
  | Outcome.ok n :: _ =>
      some (Outcome.ok n,
        if st.cf_verbose > 2 then
          [Effect.log LogLevel.noise
            ("safe_send(" ++ toString fd ++ ", " ++ toString len ++ ") = " ++ toString n)]
        else [],
        st)

/-- `int safe_recvmsg(int fd, struct msghdr *msg, int flags)`: EINTR loop,
`log_warning` on any failure, `log_noise` on success when `cf_verbose > 2`. -/
def safe_recvmsg (fd flags : Int) (st : GlobalState) :
    List Outcome → Option (Outcome × List Effect × GlobalState)
  | [] => none
  | Outcome.err Errno.EINTR :: rest => safe_recvmsg fd flags st rest
  | Outcome.err e :: _ =>
      some (Outcome.err e,
        [Effect.log LogLevel.warning
          ("safe_recvmsg(" ++ toString fd ++ ", msg, " ++ toString flags ++ ") = " ++ strerror e)],
        st)
  | Outcome.ok n :: _ =>
      some (Outcome.ok n,
        if st.cf_verbose > 2 then
          [Effect.log LogLevel.noise
            ("safe_recvmsg(" ++ toString fd ++ ", msg, " ++ toString flags ++ ") = " ++ toString n)]
        else [],
        st)

/-- The body of `int safe_sendmsg(int fd, const struct msghdr *msg, int flags)`
after `int msgerr_count = 0`, with the current `msgerr_count` as an argument.
`iovlen` and `ctllen` stand for `msg->msg_iov[0].iov_len` and
`msg->msg_controllen`, which only feed the warning text.  On a non-EINTR
failure it logs a warning; when the errno is `EMSGSIZE` and `msgerr_count < 20`
it additionally logs a second warning, sleeps `{1, 0}` via `select`,
increments the counter and re-invokes `sendmsg`. -/
def safe_sendmsg_go (fd iovlen ctllen flags : Int) (st : GlobalState) (count : Nat) :
    List Outcome → Option (Outcome × List Effect × GlobalState)
  | [] => none
  | Outcome.err Errno.EINTR :: rest => safe_sendmsg_go fd iovlen ctllen flags st count rest
  | Outcome.err e :: rest =>
      let warn := Effect.log LogLevel.warning
        ("safe_sendmsg(" ++ toString fd ++ ", msg[" ++ toString iovlen ++ "," ++
          toString ctllen ++ "], " ++ toString flags ++ ") = " ++ strerror e)
      if e = Errno.EMSGSIZE ∧ count < 20 then
        match safe_sendmsg_go fd iovlen ctllen flags st (count + 1) rest with
        | none => none
        | some (o, effs, st1) =>
            some (o, warn :: Effect.log LogLevel.warning "trying to sleep a bit" ::
              Effect.sleep 1 0 :: effs, st1)
      else
        some (Outcome.err e, [warn], st)
  | Outcome.ok n :: _ =>
      some (Outcome.ok n,
        if st.cf_verbose > 2 then
          [Effect.log LogLevel.noise
            ("safe_sendmsg(" ++ toString fd ++ ", msg, " ++ toString flags ++ ") = " ++ toString n)]
        else [],
        st)

/-- `safe_sendmsg` proper: the loop entered with `msgerr_count = 0`. -/
def safe_sendmsg (fd iovlen ctllen flags : Int) (st : GlobalState)
    (trace : List Outcome) : Option (Outcome × List Effect × GlobalState) :=
  safe_sendmsg_go fd iovlen ctllen flags st 0 trace

/-! ### Socket addresses and `sa2str` -/

/-- `AF_INET` on the modelled platform. -/
def AF_INET : Nat := 2

/-- `AF_UNIX` on the modelled platform. -/
def AF_UNIX : Nat := 1

/-- A `struct sockaddr` as far as `sa2str` inspects it: the family plus the
fields of the casted views.  IPv4 carries the four address octets (so that
`inet_ntoa` is plain rendering) and the host-order port (the value
`ntohs(sin_port)` yields). -/
inductive SockAddr
  | inet (a b c d : Nat) (port : Nat)
  | unix (path : String)
  | other (family : Nat)
deriving DecidableEq, Repr

/-- The `sa_family` field. -/
def SockAddr.family : SockAddr → Nat
  | SockAddr.inet _ _ _ _ _ => AF_INET
  | SockAddr.unix _ => AF_UNIX
  | SockAddr.other f => f

/-- `inet_ntoa(in->sin_addr)`: dotted-quad text of the IPv4 address. -/
def inet_ntoa : SockAddr → String
  | SockAddr.inet a b c d _ =>
      toString a ++ "." ++ toString b ++ "." ++ toString c ++ "." ++ toString d
  | _ => "0.0.0.0"

/-- `ntohs(in->sin_port)` (the model stores the port in host order). -/
def sin_port : SockAddr → Nat
  | SockAddr.inet _ _ _ _ p => p
  | _ => 0

/-- `un->sun_path`. -/
def sun_path : SockAddr → String
  | SockAddr.unix p => p
  | _ => ""

/-- `snprintf(buf, 256, ...)`: the buffer receives at most 255 characters of
the formatted text plus the terminating NUL. -/
def snprintf256 (s : String) : String := String.mk (s.data.take 255)

/-- `static const char *sa2str(const struct sockaddr *sa)`, faithful to the
source text: the `AF_INET` branch is followed by `if (… AF_UNIX) … else …`
WITHOUT an `else` joining it to the first branch, so the second `if`/`else`
always runs and overwrites whatever the `AF_INET` branch stored.  `buf` is the
content of the static buffer on entry; the returned string is its content on
exit. -/
def sa2str (sa : SockAddr) (buf : String) : String :=
  let _buf1 : String :=
    if sa.family = AF_INET then
      snprintf256 (inet_ntoa sa ++ ":" ++ toString (sin_port sa))
    else buf
  if sa.family = AF_UNIX then
    snprintf256 ("unix:" ++ sun_path sa)
  else
    snprintf256 "sa2str: unknown proto"

/-- `int safe_connect(int fd, const struct sockaddr *sa, socklen_t sa_len)`:
EINTR loop; a failure is logged (at noise level, with `sa2str`) unless the
errno is `EINPROGRESS` and `cf_verbose <= 2`; a success is logged only when
`cf_verbose > 2`.  Calling `sa2str` overwrites the static buffer. -/
def safe_connect (fd : Int) (sa : SockAddr) (st : GlobalState) :
    List Outcome → Option (Outcome × List Effect × GlobalState)
  | [] => none
  | Outcome.err Errno.EINTR :: rest => safe_connect fd sa st rest
  | Outcome.err e :: _ =>
      if e ≠ Errno.EINPROGRESS ∨ st.cf_verbose > 2 then
        let s := sa2str sa st.sa2str_buf
        some (Outcome.err e,
          [Effect.log LogLevel.noise
            ("connect(" ++ toString fd ++ ", " ++ s ++ ") = " ++ strerror e)],
          { st with sa2str_buf := s })
      else
        some (Outcome.err e, [], st)
  | Outcome.ok n :: _ =>
      if st.cf_verbose > 2 then
        let s := sa2str sa st.sa2str_buf
        some (Outcome.ok n,
          [Effect.log LogLevel.noise
            ("connect(" ++ toString fd ++ ", " ++ s ++ ") = " ++ toString n)],
          { st with sa2str_buf := s })
      else
        some (Outcome.ok n, [], st)

/-- `int safe_accept(int fd, struct sockaddr *sa, socklen_t *sa_len_p)`:
EINTR loop; failures are logged at noise level (no address rendering);
successes are logged with the peer address via `sa2str` when
`cf_verbose > 2`.  `sa` is the peer address the successful `accept` stored. -/
def safe_accept (fd : Int) (sa : SockAddr) (st : GlobalState) :
    List Outcome → Option (Outcome × List Effect × GlobalState)
  | [] => none
  | Outcome.err Errno.EINTR :: rest => safe_accept fd sa st rest
  | Outcome.err e :: _ =>
      some (Outcome.err e,
        [Effect.log LogLevel.noise
          ("safe_accept(" ++ toString fd ++ ") = " ++ strerror e)],
        st)
  | Outcome.ok n :: _ =>
      if st.cf_verbose > 2 then
        let s := sa2str sa st.sa2str_buf
        some (Outcome.ok n,
          [Effect.log LogLevel.noise
            ("safe_accept(" ++ toString fd ++ ") = " ++ toString n ++ " (" ++ s ++ ")")],
          { st with sa2str_buf := s })
      else
        some (Outcome.ok n, [], st)

/-! ### Specification-side helpers -/

/-- The first outcome of the trace that is not an `EINTR` failure: what a
pure retry-on-EINTR loop would return. -/
def firstNonEintr : List Outcome → Option Outcome
  | [] => none
  | Outcome.err Errno.EINTR :: rest => firstNonEintr rest
  | o :: _ => some o

/-- Number of `sleep` effects in an effect list. -/
def countSleeps (effs : List Effect) : Nat :=
  (effs.filter fun e => match e with
    | Effect.sleep _ _ => true
    | _ => false).length

/-- Number of outcomes in a trace that are not `EINTR` failures. -/
def countNonEintr (trace : List Outcome) : Nat :=
  (trace.filter fun o => o ≠ Outcome.err Errno.EINTR).length

/-! ### `src/usual/socket.c` -/

/-- `O_NONBLOCK` on the modelled platform (bit 11, as on Linux). -/
def O_NONBLOCK : Nat := 2048

/-- `~O_NONBLOCK` as the 32-bit mask the C expression `flags & ~O_NONBLOCK`
ands with. -/
def NONBLOCK_MASK : Nat := (2 ^ 32 - 1) ^^^ O_NONBLOCK

/-- The kernel-side per-descriptor state the two helpers touch: the
`F_GETFL`/`F_SETFL` status flags (a 32-bit word containing `O_NONBLOCK`),
the `FD_CLOEXEC` descriptor flag, and the `SO_NOSIGPIPE` socket option. -/
structure FdState where
  statusFlags : Nat
  cloexec : Bool
  nosigpipe : Bool
deriving DecidableEq, Repr

/-- `bool socket_set_nonblocking(int fd, bool non_block)`.  The two `fcntl`
calls may each fail; `getfl_ok` and `setfl_ok` are their success indicators.
On `F_GETFL` failure return `false`; otherwise set or clear `O_NONBLOCK` in
the flags and write them back with `F_SETFL`, returning `false` if that
fails and `true` otherwise. -/
def socket_set_nonblocking (fd : FdState) (non_block : Bool)
    (getfl_ok setfl_ok : Bool) : Bool × FdState :=
  if getfl_ok = false then (false, fd)
  else
    let flags := fd.statusFlags
    let flags := if non_block then flags ||| O_NONBLOCK else flags &&& NONBLOCK_MASK
    if setfl_ok = false then (false, fd)
    else (true, { fd with statusFlags := flags })

/-- `bool socket_setup(int sock, bool non_block)`: `fcntl(sock, F_SETFD,
FD_CLOEXEC)`, then (when the platform defines `SO_NOSIGPIPE`, here the flag
`has_nosigpipe`) `setsockopt(sock, SOL_SOCKET, SO_NOSIGPIPE, &val, ...)` with
`val = 1`, then `socket_set_nonblocking(sock, non_block)`; each step returns
`false` on its first failure, with no retry and no rollback.
`setfd_ok` and `sockopt_ok` are the success indicators of the first two
calls. -/
def socket_setup (fd : FdState) (non_block : Bool) (has_nosigpipe : Bool)
    (setfd_ok sockopt_ok getfl_ok setfl_ok : Bool) : Bool × FdState :=
  if setfd_ok = false then (false, fd)
  else
    let fd1 := { fd with cloexec := true }
    if has_nosigpipe then
      if sockopt_ok = false then (false, fd1)
      else
        let fd2 := { fd1 with nosigpipe := true }
        socket_set_nonblocking fd2 non_block getfl_ok setfl_ok
    else
      socket_set_nonblocking fd1 non_block getfl_ok setfl_ok

/-! ### Basic lemmas -/

theorem firstNonEintr_ne_eintr (trace : List Outcome) (o : Outcome)
    (h : firstNonEintr trace = some o) : o ≠ Outcome.err Errno.EINTR := by
  induction trace with
  | nil => simp [firstNonEintr] at h
  | cons o0 rest ih =>
    cases o0 with
    | ok n =>
      simp [firstNonEintr] at h
      simp [← h]
    | err e =>
      cases e with
      | EINTR => exact ih h
      | EMSGSIZE => simp [firstNonEintr] at h; simp [← h]
      | EINPROGRESS => simp [firstNonEintr] at h; simp [← h]
      | other n => simp [firstNonEintr] at h; simp [← h]

theorem firstNonEintr_isSome (trace : List Outcome) (o : Outcome)
    (ho : o ∈ trace) (hne : o ≠ Outcome.err Errno.EINTR) :
    ∃ o0, firstNonEintr trace = some o0 := by
  induction trace with
  | nil => simp at ho
  | cons o0 rest ih =>
    cases o0 with
    | ok n => exact ⟨Outcome.ok n, rfl⟩
    | err e =>
      cases e with
      | EINTR =>
        have : o ∈ rest := by
          rcases List.mem_cons.mp ho with h | h
          · exact absurd h hne
          · exact h
        exact ih this
      | EMSGSIZE => exact ⟨Outcome.err Errno.EMSGSIZE, rfl⟩
      | EINPROGRESS => exact ⟨Outcome.err Errno.EINPROGRESS, rfl⟩
      | other n => exact ⟨Outcome.err (Errno.other n), rfl⟩

theorem countNonEintr_nil : countNonEintr [] = 0 := rfl

theorem countNonEintr_cons_eintr (rest : List Outcome) :
    countNonEintr (Outcome.err Errno.EINTR :: rest) = countNonEintr rest := by
  simp [countNonEintr]

theorem countNonEintr_cons_ne (o : Outcome) (rest : List Outcome)
    (h : o ≠ Outcome.err Errno.EINTR) :
    countNonEintr (o :: rest) = countNonEintr rest + 1 := by
  simp [countNonEintr, List.filter_cons, h]

/-! ### Factoring the simple wrappers through `firstNonEintr`

Each of the eight plain EINTR-loop wrappers evaluates its return expression at
the first non-EINTR outcome of the trace; the outcomes before it are the
retried EINTR failures. -/

theorem safe_read_eq (fd len : Int) (st : GlobalState) (trace : List Outcome) :
    safe_read fd len st trace =
      (firstNonEintr trace).bind fun o => safe_read fd len st [o] := by
  induction trace with
  | nil => rfl
  | cons o0 rest ih =>
    cases o0 with
    | ok n => rfl
    | err e =>
      cases e with
      | EINTR => exact ih
      | EMSGSIZE => rfl
      | EINPROGRESS => rfl
      | other n => rfl

theorem safe_write_eq (fd len : Int) (st : GlobalState) (trace : List Outcome) :
    safe_write fd len st trace =
      (firstNonEintr trace).bind fun o => safe_write fd len st [o] := by
  induction trace with
  | nil => rfl
  | cons o0 rest ih =>
    cases o0 with
    | ok n => rfl
    | err e =>
      cases e with
      | EINTR => exact ih
      | EMSGSIZE => rfl
      | EINPROGRESS => rfl
      | other n => rfl

theorem safe_close_eq (fd : Int) (st : GlobalState) (trace : List Outcome) :
    safe_close fd st trace =
      (firstNonEintr trace).bind fun o => safe_close fd st [o] := by
  induction trace with
  | nil => rfl
  | cons o0 rest ih =>
    cases o0 with
    | ok n => rfl
    | err e =>
      cases e with
      | EINTR => exact ih
      | EMSGSIZE => rfl
      | EINPROGRESS => rfl
      | other n => rfl

theorem safe_recv_eq (fd len flags : Int) (st : GlobalState) (trace : List Outcome) :
    safe_recv fd len flags st trace =
      (firstNonEintr trace).bind fun o => safe_recv fd len flags st [o] := by
  induction trace with
  | nil => rfl
  | cons o0 rest ih =>
    cases o0 with
    | ok n => rfl
    | err e =>
      cases e with
      | EINTR => exact ih
      | EMSGSIZE => rfl
      | EINPROGRESS => rfl
      | other n => rfl

theorem safe_send_eq (fd len flags : Int) (st : GlobalState) (trace : List Outcome) :
    safe_send fd len flags st trace =
      (firstNonEintr trace).bind fun o => safe_send fd len flags st [o] := by
  induction trace with
  | nil => rfl
  | cons o0 rest ih =>
    cases o0 with
    | ok n => rfl
    | err e =>
      cases e with
      | EINTR => exact ih
      | EMSGSIZE => rfl
      | EINPROGRESS => rfl
      | other n => rfl

theorem safe_recvmsg_eq (fd flags : Int) (st : GlobalState) (trace : List Outcome) :
    safe_recvmsg fd flags st trace =
      (firstNonEintr trace).bind fun o => safe_recvmsg fd flags st [o] := by
  induction trace with
  | nil => rfl
  | cons o0 rest ih =>
    cases o0 with
    | ok n => rfl
    | err e =>
      cases e with
      | EINTR => exact ih
      | EMSGSIZE => rfl
      | EINPROGRESS => rfl
      | other n => rfl

theorem safe_connect_eq (fd : Int) (sa : SockAddr) (st : GlobalState)
    (trace : List Outcome) :
    safe_connect fd sa st trace =
      (firstNonEintr trace).bind fun o => safe_connect fd sa st [o] := by
  induction trace with
  | nil => rfl
  | cons o0 rest ih =>
    cases o0 with
    | ok n => rfl
    | err e =>
      cases e with
      | EINTR => exact ih
      | EMSGSIZE => rfl
      | EINPROGRESS => rfl
      | other n => rfl

theorem safe_accept_eq (fd : Int) (sa : SockAddr) (st : GlobalState)
    (trace : List Outcome) :
    safe_accept fd sa st trace =
      (firstNonEintr trace).bind fun o => safe_accept fd sa st [o] := by
  induction trace with
  | nil => rfl
  | cons o0 rest ih =>
    cases o0 with
    | ok n => rfl
    | err e =>
      cases e with
      | EINTR => exact ih
      | EMSGSIZE => rfl
      | EINPROGRESS => rfl
      | other n => rfl

/-! ### Bit lemmas for the `O_NONBLOCK` manipulation -/

theorem O_NONBLOCK_testBit (i : Nat) : O_NONBLOCK.testBit i = decide (11 = i) := by
  have h : O_NONBLOCK = 2 ^ 11 := by norm_num [O_NONBLOCK]
  rw [h, Nat.testBit_two_pow]

theorem NONBLOCK_MASK_testBit (i : Nat) :
    NONBLOCK_MASK.testBit i = (decide (i < 32) ^^ decide (11 = i)) := by
  rw [NONBLOCK_MASK, Nat.testBit_xor, Nat.testBit_two_pow_sub_one, O_NONBLOCK_testBit]

theorem O_NONBLOCK_testBit_11 : O_NONBLOCK.testBit 11 = true := by decide

theorem NONBLOCK_MASK_testBit_11 : NONBLOCK_MASK.testBit 11 = false := by decide

theorem testBit_or_nonblock (flags : Nat) :
    (flags ||| O_NONBLOCK).testBit 11 = true := by
  rw [Nat.testBit_lor, O_NONBLOCK_testBit]
  simp

theorem testBit_and_mask (flags : Nat) :
    (flags &&& NONBLOCK_MASK).testBit 11 = false := by
  rw [Nat.testBit_land, NONBLOCK_MASK_testBit]
  simp

theorem and_mask_or_nonblock (flags : Nat) (hlt : flags < 2 ^ 32)
    (h11 : flags.testBit 11 = false) :
    (flags ||| O_NONBLOCK) &&& NONBLOCK_MASK = flags := by
  apply Nat.eq_of_testBit_eq
  intro i
  rw [Nat.testBit_land, Nat.testBit_lor, NONBLOCK_MASK_testBit, O_NONBLOCK_testBit]
  by_cases h1 : i = 11
  · subst h1
    simp [h11]
  · by_cases h2 : i < 32
    · have h1s : ¬ (11 = i) := fun h => h1 h.symm
      simp [h1s, h2]
    · have hfi : flags.testBit i = false := by
        apply Nat.testBit_lt_two_pow
        calc flags < 2 ^ 32 := hlt
          _ ≤ 2 ^ i := Nat.pow_le_pow_right (by norm_num) (by omega)
      have h1s : ¬ (11 = i) := fun h => h1 h.symm
      simp [h1s, h2, hfi]

/-! ### Claim C5 -/

/-- C5: a successful `socket_set_nonblocking(fd, true)` followed by a
successful `socket_set_nonblocking(fd, false)` restores a blocking
descriptor's original state: both calls succeed, the intermediate flags have
`O_NONBLOCK` set, and the final descriptor state equals the original one, in
which the non-blocking flag is clear. -/
theorem socket_set_nonblocking_roundtrip (fd : FdState)
    (hlt : fd.statusFlags < 2 ^ 32) (hblk : fd.statusFlags.testBit 11 = false) :
    ∃ fd1, socket_set_nonblocking fd true true true = (true, fd1) ∧
      fd1.statusFlags.testBit 11 = true ∧
      socket_set_nonblocking fd1 false true true = (true, fd) := by
  refine ⟨{ fd with statusFlags := fd.statusFlags ||| O_NONBLOCK }, rfl,
    testBit_or_nonblock _, ?_⟩
  show (true, { fd with statusFlags := (fd.statusFlags ||| O_NONBLOCK) &&& NONBLOCK_MASK })
      = (true, fd)
  rw [and_mask_or_nonblock _ hlt hblk]

/-- Witness for `socket_set_nonblocking_roundtrip`: the round trip on a
blocking descriptor with status flags `2` (`O_RDWR`). -/
theorem socket_set_nonblocking_roundtrip_witness :
    ∃ fd1, socket_set_nonblocking ⟨2, false, false⟩ true true true = (true, fd1) ∧
      fd1.statusFlags.testBit 11 = true ∧
      socket_set_nonblocking fd1 false true true = (true, ⟨2, false, false⟩) :=
  socket_set_nonblocking_roundtrip ⟨2, false, false⟩ (by norm_num) (by decide)

/-! ### Claim C4 -/

/-- C4: `socket_setup` performs its steps in order — close-on-exec, then
(on platforms with `SO_NOSIGPIPE`) the SIGPIPE suppression, then the
non-blocking toggle.  It succeeds exactly when every attempted step
succeeds; on the first failing step it returns `false` with the effects of
the earlier steps kept (no rollback) and the later steps not attempted; and
when it returns `true` the descriptor is close-on-exec and its `O_NONBLOCK`
bit equals `non_block`. -/
theorem socket_setup_spec (fd : FdState) (nb has sfd sop gfl sfl : Bool) :
    ((socket_setup fd nb has sfd sop gfl sfl).1 =
      (sfd && (!has || sop) && gfl && sfl)) ∧
    (sfd = false → socket_setup fd nb has sfd sop gfl sfl = (false, fd)) ∧
    (sfd = true → has = true → sop = false →
      socket_setup fd nb has sfd sop gfl sfl = (false, { fd with cloexec := true })) ∧
    ((socket_setup fd nb has sfd sop gfl sfl).2.cloexec =
      (if sfd then true else fd.cloexec)) ∧
    ((socket_setup fd nb has sfd sop gfl sfl).2.nosigpipe =
      (if sfd && has && sop then true else fd.nosigpipe)) ∧
    ((socket_setup fd nb has sfd sop gfl sfl).1 = true →
      (socket_setup fd nb has sfd sop gfl sfl).2.cloexec = true ∧
      (socket_setup fd nb has sfd sop gfl sfl).2.statusFlags.testBit 11 = nb) := by
  cases sfd <;> cases has <;> cases sop <;> cases gfl <;> cases sfl <;> cases nb <;>
    simp [socket_setup, socket_set_nonblocking, testBit_or_nonblock, testBit_and_mask,
      O_NONBLOCK_testBit_11, NONBLOCK_MASK_testBit_11]

/-- Witness for `socket_setup_spec`: with `SO_NOSIGPIPE` present and the
`setsockopt` step failing, the call fails with only close-on-exec applied. -/
theorem socket_setup_spec_witness :
    socket_setup ⟨2, false, false⟩ true true true false true true =
      (false, { (⟨2, false, false⟩ : FdState) with cloexec := true }) := by
  have h := socket_setup_spec ⟨2, false, false⟩ true true true false true true
  exact h.2.2.1 rfl rfl rfl

/-! ### Claim C3 -/

/-- C3: contrary to the claim, `sa2str` on an IPv4 address returns the
placeholder string, not `"<ipv4>:<port>"`: the source lacks an `else`
between the `AF_INET` branch and the `AF_UNIX`-`else` chain
(`} if (sa->sa_family == AF_UNIX) { ... } else { ... }`), so the trailing
`else` always overwrites the IPv4 rendering.  The unix and unknown-family
renderings match the claim. -/
theorem sa2str_inet_bug :
    sa2str (SockAddr.inet 192 0 2 1 443) "" = "sa2str: unknown proto" ∧
    "sa2str: unknown proto" ≠ "192.0.2.1:443" ∧
    sa2str (SockAddr.unix "/tmp/sock") "" = "unix:/tmp/sock" ∧
    sa2str (SockAddr.other 10) "" = "sa2str: unknown proto" := by
  refine ⟨by decide, by decide, by decide, by decide⟩

/-! ### Claim C9 -/

/-- C9: every `sa2str` result went through `snprintf(buf, 256, ...)`, so the
returned string has at most 255 characters: longer renderings are truncated
to fit the 256-byte static buffer with its terminating NUL. -/
theorem sa2str_length_le (sa : SockAddr) (buf : String) :
    (sa2str sa buf).length ≤ 255 := by
  have h : ∀ s : String, (snprintf256 s).length ≤ 255 := by
    intro s
    show (String.mk (s.data.take 255)).length ≤ 255
    rw [String.length_mk]
    simp [List.length_take]
  unfold sa2str
  by_cases h1 : sa.family = AF_UNIX <;> simp [h1, h]

/-- One-step behavior of `safe_connect` at a non-EINTR failure, phrased by
whether the silent `EINPROGRESS` condition holds. -/
theorem safe_connect_single_err (fd : Int) (sa : SockAddr) (st : GlobalState)
    (e : Errno) (he : e ≠ Errno.EINTR) :
    safe_connect fd sa st [Outcome.err e] =
      if e = Errno.EINPROGRESS ∧ st.cf_verbose ≤ 2 then
        some (Outcome.err e, [], st)
      else
        some (Outcome.err e,
          [Effect.log LogLevel.noise ("connect(" ++ toString fd ++ ", " ++
            sa2str sa st.sa2str_buf ++ ") = " ++ strerror e)],
          { st with sa2str_buf := sa2str sa st.sa2str_buf }) := by
  cases e with
  | EINTR => exact absurd rfl he
  | EMSGSIZE =>
    rw [if_neg (by simp)]
    rfl
  | EINPROGRESS =>
    by_cases hv : st.cf_verbose > 2
    · rw [if_neg (by simp; omega)]
      show (if Errno.EINPROGRESS ≠ Errno.EINPROGRESS ∨ st.cf_verbose > 2 then _ else _) = _
      rw [if_pos (Or.inr hv)]
    · rw [if_pos ⟨rfl, by omega⟩]
      show (if Errno.EINPROGRESS ≠ Errno.EINPROGRESS ∨ st.cf_verbose > 2 then _ else _) = _
      rw [if_neg (by simp [hv])]
  | other n =>
    rw [if_neg (by simp)]
    rfl

/-! ### Claim C6 -/

/-- C6: when the underlying `connect` of `safe_connect` fails with a
non-EINTR errno, the failure is returned to the caller unchanged; an
`EINPROGRESS` failure produces no log line unless `cf_verbose > 2`, while a
failure with any other non-EINTR errno produces exactly one (noise-level)
diagnostic log line. -/
theorem safe_connect_einprogress_logging (fd : Int) (sa : SockAddr)
    (st : GlobalState) (trace : List Outcome) (e : Errno)
    (h : firstNonEintr trace = some (Outcome.err e)) :
    ∃ effs st1, safe_connect fd sa st trace = some (Outcome.err e, effs, st1) ∧
      (effs = [] ↔ e = Errno.EINPROGRESS ∧ st.cf_verbose ≤ 2) ∧
      effs.length ≤ 1 := by
  have hne := firstNonEintr_ne_eintr trace _ h
  rw [safe_connect_eq, h, Option.some_bind,
    safe_connect_single_err fd sa st e (fun hh => hne (by rw [hh]))]
  by_cases hc : e = Errno.EINPROGRESS ∧ st.cf_verbose ≤ 2
  · rw [if_pos hc]
    exact ⟨[], st, rfl, by simp [hc], by simp⟩
  · rw [if_neg hc]
    refine ⟨_, _, rfl, ?_, by simp⟩
    simp [hc]

/-- Witness for `safe_connect_einprogress_logging`: an `EINPROGRESS` failure
at `cf_verbose = 0` reaches the caller with no log line. -/
theorem safe_connect_einprogress_logging_witness :
    ∃ effs st1, safe_connect 3 (SockAddr.other 10) ⟨0, "b"⟩
        [Outcome.err Errno.EINTR, Outcome.err Errno.EINPROGRESS] =
        some (Outcome.err Errno.EINPROGRESS, effs, st1) ∧
      (effs = [] ↔ Errno.EINPROGRESS = Errno.EINPROGRESS ∧
        (⟨0, "b"⟩ : GlobalState).cf_verbose ≤ 2) ∧
      effs.length ≤ 1 :=
  safe_connect_einprogress_logging 3 (SockAddr.other 10) ⟨0, "b"⟩
    [Outcome.err Errno.EINTR, Outcome.err Errno.EINPROGRESS]
    Errno.EINPROGRESS (by decide)

/-! ### Claim C7 -/

/-- C7: every non-EINTR failure of the underlying `recvmsg` in
`safe_recvmsg` produces exactly one warning-level log line, whatever the
verbosity; the success-path diagnostic (a noise-level line) is emitted if
and only if `cf_verbose > 2`. -/
theorem safe_recvmsg_logging (fd flags : Int) (st : GlobalState)
    (trace : List Outcome) :
    (∀ e, firstNonEintr trace = some (Outcome.err e) →
      ∃ m st1, safe_recvmsg fd flags st trace =
        some (Outcome.err e, [Effect.log LogLevel.warning m], st1)) ∧
    (∀ n, firstNonEintr trace = some (Outcome.ok n) →
      ∃ effs st1, safe_recvmsg fd flags st trace = some (Outcome.ok n, effs, st1) ∧
        (effs ≠ [] ↔ st.cf_verbose > 2) ∧
        (∀ lv m, Effect.log lv m ∈ effs → lv = LogLevel.noise)) := by
  constructor
  · intro e h
    have hne := firstNonEintr_ne_eintr trace _ h
    rw [safe_recvmsg_eq, h, Option.some_bind]
    cases e with
    | EINTR => exact absurd rfl hne
    | EMSGSIZE => exact ⟨_, st, rfl⟩
    | EINPROGRESS => exact ⟨_, st, rfl⟩
    | other n => exact ⟨_, st, rfl⟩
  · intro n h
    rw [safe_recvmsg_eq, h, Option.some_bind]
    refine ⟨(if st.cf_verbose > 2 then
        [Effect.log LogLevel.noise
          ("safe_recvmsg(" ++ toString fd ++ ", msg, " ++ toString flags ++ ") = "
            ++ toString n)]
      else []), st, rfl, ?_, ?_⟩
    · by_cases hv : st.cf_verbose > 2 <;> simp [hv]
    · intro lv m hm
      by_cases hv : st.cf_verbose > 2
      · rw [if_pos hv] at hm
        simp at hm
        exact hm.1
      · rw [if_neg hv] at hm
        simp at hm

/-- Witness for `safe_recvmsg_logging`, applied at a failing trace with
`cf_verbose = 0`: the failure is logged as a warning anyway. -/
theorem safe_recvmsg_logging_witness :
    ∃ m st1, safe_recvmsg 3 0 ⟨0, "b"⟩ [Outcome.err (Errno.other 111)] =
      some (Outcome.err (Errno.other 111), [Effect.log LogLevel.warning m], st1) :=
  (safe_recvmsg_logging 3 0 ⟨0, "b"⟩ [Outcome.err (Errno.other 111)]).1
    (Errno.other 111) (by decide)

/-- One step of `safe_sendmsg_go` at an `EMSGSIZE` failure with the retry
budget not yet exhausted: warn, warn again, sleep `{1, 0}`, bump the counter
and loop. -/
theorem safe_sendmsg_go_emsgsize_step (fd iovlen ctllen flags : Int)
    (st : GlobalState) (count : Nat) (rest : List Outcome) (hc : count < 20) :
    safe_sendmsg_go fd iovlen ctllen flags st count
        (Outcome.err Errno.EMSGSIZE :: rest) =
      match safe_sendmsg_go fd iovlen ctllen flags st (count + 1) rest with
      | none => none
      | some (o, effs, st1) =>
          some (o, Effect.log LogLevel.warning
              ("safe_sendmsg(" ++ toString fd ++ ", msg[" ++ toString iovlen ++ ","
                ++ toString ctllen ++ "], " ++ toString flags ++ ") = "
                ++ strerror Errno.EMSGSIZE) ::
            Effect.log LogLevel.warning "trying to sleep a bit" ::
            Effect.sleep 1 0 :: effs, st1) := by
  show (if Errno.EMSGSIZE = Errno.EMSGSIZE ∧ count < 20 then _ else _) = _
  rw [if_pos ⟨rfl, hc⟩]

/-- One step of `safe_sendmsg_go` at an `EMSGSIZE` failure with the retry
budget exhausted: the failure is surfaced with only the warning logged. -/
theorem safe_sendmsg_go_emsgsize_stop (fd iovlen ctllen flags : Int)
    (st : GlobalState) (count : Nat) (rest : List Outcome) (hc : ¬ count < 20) :
    safe_sendmsg_go fd iovlen ctllen flags st count
        (Outcome.err Errno.EMSGSIZE :: rest) =
      some (Outcome.err Errno.EMSGSIZE,
        [Effect.log LogLevel.warning
          ("safe_sendmsg(" ++ toString fd ++ ", msg[" ++ toString iovlen ++ ","
            ++ toString ctllen ++ "], " ++ toString flags ++ ") = "
            ++ strerror Errno.EMSGSIZE)], st) := by
  show (if Errno.EMSGSIZE = Errno.EMSGSIZE ∧ count < 20 then _ else _) = _
  rw [if_neg (fun hh => hc hh.2)]

/-- `safe_sendmsg_go` on `j` leading `EMSGSIZE` failures followed by a
success returns the success with exactly `j` sleeps, provided the remaining
budget `20 - count` covers `j`. -/
theorem safe_sendmsg_go_ok_replicate (fd iovlen ctllen flags : Int)
    (st : GlobalState) (n : Nat) :
    ∀ j count, count + j ≤ 20 →
      ∃ effs, safe_sendmsg_go fd iovlen ctllen flags st count
          (List.replicate j (Outcome.err Errno.EMSGSIZE) ++ [Outcome.ok n]) =
          some (Outcome.ok n, effs, st) ∧ countSleeps effs = j := by
  intro j
  induction j with
  | zero =>
    intro count hc
    refine ⟨_, rfl, ?_⟩
    by_cases hv : st.cf_verbose > 2 <;> simp [countSleeps, hv]
  | succ j ih =>
    intro count hc
    obtain ⟨effs, he, hcnt⟩ := ih (count + 1) (by omega)
    rw [List.replicate_succ, List.cons_append,
      safe_sendmsg_go_emsgsize_step fd iovlen ctllen flags st count _ (by omega), he]
    refine ⟨_, rfl, ?_⟩
    simp [countSleeps] at hcnt ⊢
    omega

/-- `safe_sendmsg_go` with budget `m` left, applied to `m + 1` straight
`EMSGSIZE` failures, surfaces the failure after `m` sleeps. -/
theorem safe_sendmsg_go_fail_replicate (fd iovlen ctllen flags : Int)
    (st : GlobalState) :
    ∀ m, m ≤ 20 →
      ∃ effs, safe_sendmsg_go fd iovlen ctllen flags st (20 - m)
          (List.replicate (m + 1) (Outcome.err Errno.EMSGSIZE)) =
          some (Outcome.err Errno.EMSGSIZE, effs, st) ∧ countSleeps effs = m := by
  intro m
  induction m with
  | zero =>
    intro _
    refine ⟨[Effect.log LogLevel.warning
        ("safe_sendmsg(" ++ toString fd ++ ", msg[" ++ toString iovlen ++ ","
          ++ toString ctllen ++ "], " ++ toString flags ++ ") = "
          ++ strerror Errno.EMSGSIZE)], ?_, ?_⟩
    · exact safe_sendmsg_go_emsgsize_stop fd iovlen ctllen flags st 20 _ (by omega)
    · simp [countSleeps]
  | succ m ih =>
    intro hm
    obtain ⟨effs, he, hc⟩ := ih (by omega)
    have h1 : 20 - (m + 1) + 1 = 20 - m := by omega
    rw [List.replicate_succ,
      safe_sendmsg_go_emsgsize_step fd iovlen ctllen flags st (20 - (m + 1)) _ (by omega),
      h1, he]
    refine ⟨_, rfl, ?_⟩
    simp [countSleeps] at hc ⊢
    omega

/-! ### Claim C2 -/

/-- C2: when the underlying `sendmsg` fails with `EMSGSIZE`, `safe_sendmsg`
sleeps `{1, 0}` seconds and retries, up to 20 such retries in one call: a
trace of `j ≤ 20` straight `EMSGSIZE` failures followed by a success returns
that success after exactly `j` sleeps and no further retries, while a trace
of 21 straight `EMSGSIZE` failures returns the 21st failure to the caller
unchanged (indicator and errno intact) after the 20 permitted sleeps. -/
theorem safe_sendmsg_emsgsize_retry (fd iovlen ctllen flags : Int)
    (st : GlobalState) (n j : Nat) (hj : j ≤ 20) :
    (∃ effs, safe_sendmsg fd iovlen ctllen flags st
        (List.replicate j (Outcome.err Errno.EMSGSIZE) ++ [Outcome.ok n]) =
        some (Outcome.ok n, effs, st) ∧ countSleeps effs = j) ∧
    (∃ effs, safe_sendmsg fd iovlen ctllen flags st
        (List.replicate 21 (Outcome.err Errno.EMSGSIZE)) =
        some (Outcome.err Errno.EMSGSIZE, effs, st) ∧ countSleeps effs = 20) := by
  constructor
  · exact safe_sendmsg_go_ok_replicate fd iovlen ctllen flags st n j 0 (by omega)
  · have h := safe_sendmsg_go_fail_replicate fd iovlen ctllen flags st 20 le_rfl
    have h2 : (20 : Nat) - 20 = 0 := rfl
    have h3 : (20 : Nat) + 1 = 21 := rfl
    rw [h2, h3] at h
    exact h

/-- Witness for `safe_sendmsg_emsgsize_retry` at `j = 2` and concrete
arguments. -/
theorem safe_sendmsg_emsgsize_retry_witness :
    (∃ effs, safe_sendmsg 3 1 0 0 ⟨0, "b"⟩
        (List.replicate 2 (Outcome.err Errno.EMSGSIZE) ++ [Outcome.ok 5]) =
        some (Outcome.ok 5, effs, ⟨0, "b"⟩) ∧ countSleeps effs = 2) ∧
    (∃ effs, safe_sendmsg 3 1 0 0 ⟨0, "b"⟩
        (List.replicate 21 (Outcome.err Errno.EMSGSIZE)) =
        some (Outcome.err Errno.EMSGSIZE, effs, ⟨0, "b"⟩) ∧ countSleeps effs = 20) :=
  safe_sendmsg_emsgsize_retry 3 1 0 0 ⟨0, "b"⟩ 5 2 (by decide)

/-- Injectivity of `some` on result triples, with the components the
definitions produce recovered up to definitional reduction. -/
theorem some_triple_inj {α β γ : Type} {a o : α} {b effs : β} {c st1 : γ}
    (h : (some (a, b, c) : Option (α × β × γ)) = some (o, effs, st1)) :
    o = a ∧ effs = b ∧ st1 = c := by
  have h1 := Option.some.inj h
  exact ⟨(congrArg Prod.fst h1).symm, (congrArg (fun p => p.2.1) h1).symm,
    (congrArg (fun p => p.2.2) h1).symm⟩

/-! ### The result component of each wrapper is the first non-EINTR outcome -/

theorem safe_read_fst (fd len : Int) (st : GlobalState) (trace : List Outcome) :
    (safe_read fd len st trace).map (fun r => r.1) = firstNonEintr trace := by
  rw [safe_read_eq]
  cases h0 : firstNonEintr trace with
  | none => rfl
  | some o =>
    rw [Option.some_bind]
    have hne := firstNonEintr_ne_eintr trace o h0
    cases o with
    | ok n => rfl
    | err e =>
      cases e with
      | EINTR => exact absurd rfl hne
      | EMSGSIZE => rfl
      | EINPROGRESS => rfl
      | other n => rfl

theorem safe_write_fst (fd len : Int) (st : GlobalState) (trace : List Outcome) :
    (safe_write fd len st trace).map (fun r => r.1) = firstNonEintr trace := by
  rw [safe_write_eq]
  cases h0 : firstNonEintr trace with
  | none => rfl
  | some o =>
    rw [Option.some_bind]
    have hne := firstNonEintr_ne_eintr trace o h0
    cases o with
    | ok n => rfl
    | err e =>
      cases e with
      | EINTR => exact absurd rfl hne
      | EMSGSIZE => rfl
      | EINPROGRESS => rfl
      | other n => rfl

theorem safe_close_fst (fd : Int) (st : GlobalState) (trace : List Outcome) :
    (safe_close fd st trace).map (fun r => r.1) = firstNonEintr trace := by
  rw [safe_close_eq]
  cases h0 : firstNonEintr trace with
  | none => rfl
  | some o =>
    rw [Option.some_bind]
    have hne := firstNonEintr_ne_eintr trace o h0
    cases o with
    | ok n => rfl
    | err e =>
      cases e with
      | EINTR => exact absurd rfl hne
      | EMSGSIZE => rfl
      | EINPROGRESS => rfl
      | other n => rfl

theorem safe_recv_fst (fd len flags : Int) (st : GlobalState) (trace : List Outcome) :
    (safe_recv fd len flags st trace).map (fun r => r.1) = firstNonEintr trace := by
  rw [safe_recv_eq]
  cases h0 : firstNonEintr trace with
  | none => rfl
  | some o =>
    rw [Option.some_bind]
    have hne := firstNonEintr_ne_eintr trace o h0
    cases o with
    | ok n => rfl
    | err e =>
      cases e with
      | EINTR => exact absurd rfl hne
      | EMSGSIZE => rfl
      | EINPROGRESS => rfl
      | other n => rfl

theorem safe_send_fst (fd len flags : Int) (st : GlobalState) (trace : List Outcome) :
    (safe_send fd len flags st trace).map (fun r => r.1) = firstNonEintr trace := by
  rw [safe_send_eq]
  cases h0 : firstNonEintr trace with
  | none => rfl
  | some o =>
    rw [Option.some_bind]
    have hne := firstNonEintr_ne_eintr trace o h0
    cases o with
    | ok n => rfl
    | err e =>
      cases e with
      | EINTR => exact absurd rfl hne
      | EMSGSIZE => rfl
      | EINPROGRESS => rfl
      | other n => rfl

theorem safe_recvmsg_fst (fd flags : Int) (st : GlobalState) (trace : List Outcome) :
    (safe_recvmsg fd flags st trace).map (fun r => r.1) = firstNonEintr trace := by
  rw [safe_recvmsg_eq]
  cases h0 : firstNonEintr trace with
  | none => rfl
  | some o =>
    rw [Option.some_bind]
    have hne := firstNonEintr_ne_eintr trace o h0
    cases o with
    | ok n => rfl
    | err e =>
      cases e with
      | EINTR => exact absurd rfl hne
      | EMSGSIZE => rfl
      | EINPROGRESS => rfl
      | other n => rfl

theorem safe_connect_fst (fd : Int) (sa : SockAddr) (st : GlobalState)
    (trace : List Outcome) :
    (safe_connect fd sa st trace).map (fun r => r.1) = firstNonEintr trace := by
  rw [safe_connect_eq]
  cases h0 : firstNonEintr trace with
  | none => rfl
  | some o =>
    rw [Option.some_bind]
    have hne := firstNonEintr_ne_eintr trace o h0
    cases o with
    | ok n =>
      show (Option.map _ (if st.cf_verbose > 2 then _ else _)) = _
      split <;> rfl
    | err e =>
      cases e with
      | EINTR => exact absurd rfl hne
      | EMSGSIZE => rfl
      | EINPROGRESS =>
        show (Option.map _
          (if Errno.EINPROGRESS ≠ Errno.EINPROGRESS ∨ st.cf_verbose > 2 then _ else _)) = _
        split <;> rfl
      | other n => rfl

theorem safe_accept_fst (fd : Int) (sa : SockAddr) (st : GlobalState)
    (trace : List Outcome) :
    (safe_accept fd sa st trace).map (fun r => r.1) = firstNonEintr trace := by
  rw [safe_accept_eq]
  cases h0 : firstNonEintr trace with
  | none => rfl
  | some o =>
    rw [Option.some_bind]
    have hne := firstNonEintr_ne_eintr trace o h0
    cases o with
    | ok n =>
      show (Option.map _ (if st.cf_verbose > 2 then _ else _)) = _
      split <;> rfl
    | err e =>
      cases e with
      | EINTR => exact absurd rfl hne
      | EMSGSIZE => rfl
      | EINPROGRESS => rfl
      | other n => rfl

/-- Any result `safe_sendmsg_go` returns is a non-EINTR outcome, and the
process-wide state comes back unchanged. -/
theorem safe_sendmsg_go_inv (fd iovlen ctllen flags : Int) (st : GlobalState) :
    ∀ (trace : List Outcome) (count : Nat) (o : Outcome) (effs : List Effect)
      (st1 : GlobalState),
      safe_sendmsg_go fd iovlen ctllen flags st count trace = some (o, effs, st1) →
      o ≠ Outcome.err Errno.EINTR ∧ st1 = st := by
  intro trace
  induction trace with
  | nil =>
    intro count o effs st1 h
    exact absurd h (by intro hh; exact Option.noConfusion hh)
  | cons o0 rest ih =>
    intro count o effs st1 h
    cases o0 with
    | ok n =>
      obtain ⟨h1, _, h3⟩ := some_triple_inj h
      exact ⟨by rw [h1]; intro hh; exact Outcome.noConfusion hh, h3⟩
    | err e =>
      cases e with
      | EINTR => exact ih count o effs st1 h
      | EMSGSIZE =>
        by_cases hlt : count < 20
        · rw [safe_sendmsg_go_emsgsize_step fd iovlen ctllen flags st count rest hlt] at h
          cases hgo : safe_sendmsg_go fd iovlen ctllen flags st (count + 1) rest with
          | none => rw [hgo] at h; exact absurd h (by intro hh; exact Option.noConfusion hh)
          | some r =>
            obtain ⟨o2, effs2, st2⟩ := r
            rw [hgo] at h
            obtain ⟨h1, _, h3⟩ := some_triple_inj h
            obtain ⟨hne2, hst2⟩ := ih (count + 1) o2 effs2 st2 hgo
            exact ⟨by rw [h1]; exact hne2, by rw [h3]; exact hst2⟩
        · rw [safe_sendmsg_go_emsgsize_stop fd iovlen ctllen flags st count rest hlt] at h
          obtain ⟨h1, _, h3⟩ := some_triple_inj h
          exact ⟨by rw [h1]; simp, h3⟩
      | EINPROGRESS =>
        obtain ⟨h1, _, h3⟩ := some_triple_inj h
        exact ⟨by rw [h1]; simp, h3⟩
      | other n =>
        obtain ⟨h1, _, h3⟩ := some_triple_inj h
        exact ⟨by rw [h1]; simp, h3⟩

/-- When the first non-EINTR outcome is not an `EMSGSIZE` failure,
`safe_sendmsg_go` returns it, like the plain wrappers do. -/
theorem safe_sendmsg_go_first_not_emsgsize (fd iovlen ctllen flags : Int)
    (st : GlobalState) :
    ∀ (trace : List Outcome) (count : Nat) (o : Outcome),
      firstNonEintr trace = some o → o ≠ Outcome.err Errno.EMSGSIZE →
      (safe_sendmsg_go fd iovlen ctllen flags st count trace).map
        (fun r => r.1) = some o := by
  intro trace
  induction trace with
  | nil => intro count o h hne; exact absurd h (by intro hh; exact Option.noConfusion hh)
  | cons o0 rest ih =>
    intro count o h hne
    cases o0 with
    | ok n =>
      have h1 : Outcome.ok n = o := Option.some.inj h
      rw [← h1]
      rfl
    | err e =>
      cases e with
      | EINTR => exact ih count o h hne
      | EMSGSIZE =>
        have h1 : Outcome.err Errno.EMSGSIZE = o := Option.some.inj h
        exact absurd h1.symm hne
      | EINPROGRESS =>
        have h1 : Outcome.err Errno.EINPROGRESS = o := Option.some.inj h
        rw [← h1]
        rfl
      | other n =>
        have h1 : Outcome.err (Errno.other n) = o := Option.some.inj h
        rw [← h1]
        rfl

/-- `safe_sendmsg_go` returns a result whenever the trace still offers
`21 - count` non-EINTR outcomes: each retry round consumes one of them and
the retry counter is capped at 20. -/
theorem safe_sendmsg_go_total (fd iovlen ctllen flags : Int) (st : GlobalState) :
    ∀ (trace : List Outcome) (count : Nat), count ≤ 20 →
      21 - count ≤ countNonEintr trace →
      (safe_sendmsg_go fd iovlen ctllen flags st count trace).isSome = true := by
  intro trace
  induction trace with
  | nil =>
    intro count hc hcnt
    rw [countNonEintr_nil] at hcnt
    omega
  | cons o0 rest ih =>
    intro count hc hcnt
    cases o0 with
    | ok n => rfl
    | err e =>
      cases e with
      | EINTR =>
        rw [countNonEintr_cons_eintr] at hcnt
        exact ih count hc hcnt
      | EMSGSIZE =>
        rw [countNonEintr_cons_ne _ _ (by simp)] at hcnt
        by_cases hlt : count < 20
        · rw [safe_sendmsg_go_emsgsize_step fd iovlen ctllen flags st count rest hlt]
          have hrec := ih (count + 1) (by omega) (by omega)
          cases hgo : safe_sendmsg_go fd iovlen ctllen flags st (count + 1) rest with
          | none => rw [hgo] at hrec; exact absurd hrec (by simp)
          | some r =>
            obtain ⟨o2, effs2, st2⟩ := r
            rfl
        · rw [safe_sendmsg_go_emsgsize_stop fd iovlen ctllen flags st count rest hlt]
          rfl
      | EINPROGRESS => rfl
      | other n => rfl

/-! ### Claim C1 -/

/-- C1 is false as stated for `safe_sendmsg`: on the trace whose first
non-EINTR syscall result is an `EMSGSIZE` failure followed by a success,
the wrapper returns the success, not the first non-EINTR result. -/
theorem safe_sendmsg_not_first_non_eintr :
    firstNonEintr [Outcome.err Errno.EMSGSIZE, Outcome.ok 5] =
      some (Outcome.err Errno.EMSGSIZE) ∧
    (safe_sendmsg 3 1 0 0 ⟨0, "b"⟩ [Outcome.err Errno.EMSGSIZE, Outcome.ok 5]).map
      (fun r => r.1) = some (Outcome.ok 5) ∧
    (some (Outcome.ok 5) : Option Outcome) ≠ some (Outcome.err Errno.EMSGSIZE) := by
  refine ⟨rfl, rfl, by decide⟩

/-- C1 (amended): whenever the underlying syscall fails with `EINTR` the
wrapper re-invokes it with no limit, and the caller never observes an EINTR
failure.  The eight wrappers other than `safe_sendmsg` return exactly the
first non-EINTR syscall result; `safe_sendmsg` also does so whenever that
result is not an `EMSGSIZE` failure (otherwise its retry workaround may run
further syscalls), and in every case the result it returns is never an
EINTR failure. -/
theorem wrappers_eintr_retry (fd len flags iovlen ctllen : Int) (sa : SockAddr)
    (st : GlobalState) (trace : List Outcome) :
    ((safe_read fd len st trace).map (fun r => r.1) = firstNonEintr trace) ∧
    ((safe_write fd len st trace).map (fun r => r.1) = firstNonEintr trace) ∧
    ((safe_recv fd len flags st trace).map (fun r => r.1) = firstNonEintr trace) ∧
    ((safe_send fd len flags st trace).map (fun r => r.1) = firstNonEintr trace) ∧
    ((safe_close fd st trace).map (fun r => r.1) = firstNonEintr trace) ∧
    ((safe_recvmsg fd flags st trace).map (fun r => r.1) = firstNonEintr trace) ∧
    ((safe_connect fd sa st trace).map (fun r => r.1) = firstNonEintr trace) ∧
    ((safe_accept fd sa st trace).map (fun r => r.1) = firstNonEintr trace) ∧
    (∀ o effs st1, safe_sendmsg fd iovlen ctllen flags st trace = some (o, effs, st1) →
      o ≠ Outcome.err Errno.EINTR) ∧
    (∀ o, firstNonEintr trace = some o → o ≠ Outcome.err Errno.EMSGSIZE →
      (safe_sendmsg fd iovlen ctllen flags st trace).map (fun r => r.1) = some o) :=
  ⟨safe_read_fst fd len st trace, safe_write_fst fd len st trace,
    safe_recv_fst fd len flags st trace, safe_send_fst fd len flags st trace,
    safe_close_fst fd st trace, safe_recvmsg_fst fd flags st trace,
    safe_connect_fst fd sa st trace, safe_accept_fst fd sa st trace,
    fun o effs st1 h =>
      (safe_sendmsg_go_inv fd iovlen ctllen flags st trace 0 o effs st1 h).1,
    fun o h hne =>
      safe_sendmsg_go_first_not_emsgsize fd iovlen ctllen flags st trace 0 o h hne⟩

/-- Witness for `wrappers_eintr_retry`: its `safe_sendmsg` clause at a trace
with one interruption before a success. -/
theorem wrappers_eintr_retry_witness :
    (safe_sendmsg 3 1 0 0 ⟨0, "b"⟩ [Outcome.err Errno.EINTR, Outcome.ok 4]).map
      (fun r => r.1) = some (Outcome.ok 4) := by
  have h := wrappers_eintr_retry 3 10 0 1 0 (SockAddr.other 9) ⟨0, "b"⟩
    [Outcome.err Errno.EINTR, Outcome.ok 4]
  exact h.2.2.2.2.2.2.2.2.2 (Outcome.ok 4) (by decide) (by decide)

/-! ### Claim C10 -/

/-- C10: each of the eight plain wrappers returns a result as soon as the
trace of syscall outcomes contains a non-EINTR result (the finite-trace
rendering of "finitely many EINTR results before a non-EINTR result");
`safe_sendmsg` returns a result whenever the trace offers 21 non-EINTR
outcomes, because its `EMSGSIZE` retry counter strictly increases on each
such retry and is capped at 20, so at most 21 non-EINTR outcomes are ever
consumed. -/
theorem wrappers_terminate (fd len flags iovlen ctllen : Int) (sa : SockAddr)
    (st : GlobalState) (trace : List Outcome) :
    ((∃ o ∈ trace, o ≠ Outcome.err Errno.EINTR) →
      (safe_read fd len st trace).isSome = true ∧
      (safe_write fd len st trace).isSome = true ∧
      (safe_recv fd len flags st trace).isSome = true ∧
      (safe_send fd len flags st trace).isSome = true ∧
      (safe_close fd st trace).isSome = true ∧
      (safe_recvmsg fd flags st trace).isSome = true ∧
      (safe_connect fd sa st trace).isSome = true ∧
      (safe_accept fd sa st trace).isSome = true) ∧
    (21 ≤ countNonEintr trace →
      (safe_sendmsg fd iovlen ctllen flags st trace).isSome = true) := by
  constructor
  · rintro ⟨o, ho, hne⟩
    obtain ⟨o0, h0⟩ := firstNonEintr_isSome trace o ho hne
    have key : ∀ r : Option (Outcome × List Effect × GlobalState),
        r.map (fun x => x.1) = firstNonEintr trace → r.isSome = true := by
      intro r hr
      cases r with
      | none =>
        rw [h0] at hr
        exact absurd hr (by simp)
      | some x => rfl
    exact ⟨key _ (safe_read_fst fd len st trace),
      key _ (safe_write_fst fd len st trace),
      key _ (safe_recv_fst fd len flags st trace),
      key _ (safe_send_fst fd len flags st trace),
      key _ (safe_close_fst fd st trace),
      key _ (safe_recvmsg_fst fd flags st trace),
      key _ (safe_connect_fst fd sa st trace),
      key _ (safe_accept_fst fd sa st trace)⟩
  · intro hcnt
    exact safe_sendmsg_go_total fd iovlen ctllen flags st trace 0 (by omega) (by omega)

/-- Witness for `wrappers_terminate`: a trace with one interruption and then
a success makes every plain wrapper return a result. -/
theorem wrappers_terminate_witness :
    (safe_read 3 10 ⟨0, "b"⟩ [Outcome.err Errno.EINTR, Outcome.ok 4]).isSome = true := by
  have h := wrappers_terminate 3 10 0 1 0 (SockAddr.other 9) ⟨0, "b"⟩
    [Outcome.err Errno.EINTR, Outcome.ok 4]
  exact (h.1 ⟨Outcome.ok 4, by decide, by decide⟩).1

/-! ### State preservation helpers -/

theorem safe_read_state (fd len : Int) (st : GlobalState) (trace : List Outcome)
    (o : Outcome) (effs : List Effect) (st1 : GlobalState)
    (h : safe_read fd len st trace = some (o, effs, st1)) :
    st1 = st ∧ effs = [] := by
  rw [safe_read_eq] at h
  cases h0 : firstNonEintr trace with
  | none => rw [h0] at h; exact absurd h (by simp)
  | some o2 =>
    rw [h0, Option.some_bind] at h
    have hne := firstNonEintr_ne_eintr trace o2 h0
    cases o2 with
    | ok n => exact ⟨(some_triple_inj h).2.2, (some_triple_inj h).2.1⟩
    | err e =>
      cases e with
      | EINTR => exact absurd rfl hne
      | EMSGSIZE => exact ⟨(some_triple_inj h).2.2, (some_triple_inj h).2.1⟩
      | EINPROGRESS => exact ⟨(some_triple_inj h).2.2, (some_triple_inj h).2.1⟩
      | other n => exact ⟨(some_triple_inj h).2.2, (some_triple_inj h).2.1⟩

theorem safe_write_state (fd len : Int) (st : GlobalState) (trace : List Outcome)
    (o : Outcome) (effs : List Effect) (st1 : GlobalState)
    (h : safe_write fd len st trace = some (o, effs, st1)) :
    st1 = st ∧ effs = [] := by
  rw [safe_write_eq] at h
  cases h0 : firstNonEintr trace with
  | none => rw [h0] at h; exact absurd h (by simp)
  | some o2 =>
    rw [h0, Option.some_bind] at h
    have hne := firstNonEintr_ne_eintr trace o2 h0
    cases o2 with
    | ok n => exact ⟨(some_triple_inj h).2.2, (some_triple_inj h).2.1⟩
    | err e =>
      cases e with
      | EINTR => exact absurd rfl hne
      | EMSGSIZE => exact ⟨(some_triple_inj h).2.2, (some_triple_inj h).2.1⟩
      | EINPROGRESS => exact ⟨(some_triple_inj h).2.2, (some_triple_inj h).2.1⟩
      | other n => exact ⟨(some_triple_inj h).2.2, (some_triple_inj h).2.1⟩

theorem safe_close_state (fd : Int) (st : GlobalState) (trace : List Outcome)
    (o : Outcome) (effs : List Effect) (st1 : GlobalState)
    (h : safe_close fd st trace = some (o, effs, st1)) :
    st1 = st ∧ effs = [] := by
  rw [safe_close_eq] at h
  cases h0 : firstNonEintr trace with
  | none => rw [h0] at h; exact absurd h (by simp)
  | some o2 =>
    rw [h0, Option.some_bind] at h
    have hne := firstNonEintr_ne_eintr trace o2 h0
    cases o2 with
    | ok n => exact ⟨(some_triple_inj h).2.2, (some_triple_inj h).2.1⟩
    | err e =>
      cases e with
      | EINTR => exact absurd rfl hne
      | EMSGSIZE => exact ⟨(some_triple_inj h).2.2, (some_triple_inj h).2.1⟩
      | EINPROGRESS => exact ⟨(some_triple_inj h).2.2, (some_triple_inj h).2.1⟩
      | other n => exact ⟨(some_triple_inj h).2.2, (some_triple_inj h).2.1⟩

theorem safe_recv_state (fd len flags : Int) (st : GlobalState)
    (trace : List Outcome) (o : Outcome) (effs : List Effect) (st1 : GlobalState)
    (h : safe_recv fd len flags st trace = some (o, effs, st1)) : st1 = st := by
  rw [safe_recv_eq] at h
  cases h0 : firstNonEintr trace with
  | none => rw [h0] at h; exact absurd h (by simp)
  | some o2 =>
    rw [h0, Option.some_bind] at h
    have hne := firstNonEintr_ne_eintr trace o2 h0
    cases o2 with
    | ok n => exact (some_triple_inj h).2.2
    | err e =>
      cases e with
      | EINTR => exact absurd rfl hne
      | EMSGSIZE => exact (some_triple_inj h).2.2
      | EINPROGRESS => exact (some_triple_inj h).2.2
      | other n => exact (some_triple_inj h).2.2

theorem safe_send_state (fd len flags : Int) (st : GlobalState)
    (trace : List Outcome) (o : Outcome) (effs : List Effect) (st1 : GlobalState)
    (h : safe_send fd len flags st trace = some (o, effs, st1)) : st1 = st := by
  rw [safe_send_eq] at h
  cases h0 : firstNonEintr trace with
  | none => rw [h0] at h; exact absurd h (by simp)
  | some o2 =>
    rw [h0, Option.some_bind] at h
    have hne := firstNonEintr_ne_eintr trace o2 h0
    cases o2 with
    | ok n => exact (some_triple_inj h).2.2
    | err e =>
      cases e with
      | EINTR => exact absurd rfl hne
      | EMSGSIZE => exact (some_triple_inj h).2.2
      | EINPROGRESS => exact (some_triple_inj h).2.2
      | other n => exact (some_triple_inj h).2.2

theorem safe_recvmsg_state (fd flags : Int) (st : GlobalState)
    (trace : List Outcome) (o : Outcome) (effs : List Effect) (st1 : GlobalState)
    (h : safe_recvmsg fd flags st trace = some (o, effs, st1)) : st1 = st := by
  rw [safe_recvmsg_eq] at h
  cases h0 : firstNonEintr trace with
  | none => rw [h0] at h; exact absurd h (by simp)
  | some o2 =>
    rw [h0, Option.some_bind] at h
    have hne := firstNonEintr_ne_eintr trace o2 h0
    cases o2 with
    | ok n => exact (some_triple_inj h).2.2
    | err e =>
      cases e with
      | EINTR => exact absurd rfl hne
      | EMSGSIZE => exact (some_triple_inj h).2.2
      | EINPROGRESS => exact (some_triple_inj h).2.2
      | other n => exact (some_triple_inj h).2.2

theorem safe_connect_verbose (fd : Int) (sa : SockAddr) (st : GlobalState)
    (trace : List Outcome) (o : Outcome) (effs : List Effect) (st1 : GlobalState)
    (h : safe_connect fd sa st trace = some (o, effs, st1)) :
    st1.cf_verbose = st.cf_verbose := by
  rw [safe_connect_eq] at h
  cases h0 : firstNonEintr trace with
  | none => rw [h0] at h; exact absurd h (by simp)
  | some o2 =>
    rw [h0, Option.some_bind] at h
    have hne := firstNonEintr_ne_eintr trace o2 h0
    cases o2 with
    | ok n =>
      revert h
      show (if st.cf_verbose > 2 then _ else _) = _ → _
      intro h
      split at h
      · obtain ⟨-, -, h3⟩ := some_triple_inj h
        rw [h3]
      · obtain ⟨-, -, h3⟩ := some_triple_inj h
        rw [h3]
    | err e =>
      cases e with
      | EINTR => exact absurd rfl hne
      | EMSGSIZE =>
        obtain ⟨-, -, h3⟩ := some_triple_inj h
        rw [h3]
      | EINPROGRESS =>
        revert h
        show (if Errno.EINPROGRESS ≠ Errno.EINPROGRESS ∨ st.cf_verbose > 2 then _
          else _) = _ → _
        intro h
        split at h
        · obtain ⟨-, -, h3⟩ := some_triple_inj h
          rw [h3]
        · obtain ⟨-, -, h3⟩ := some_triple_inj h
          rw [h3]
      | other n =>
        obtain ⟨-, -, h3⟩ := some_triple_inj h
        rw [h3]

theorem safe_accept_verbose (fd : Int) (sa : SockAddr) (st : GlobalState)
    (trace : List Outcome) (o : Outcome) (effs : List Effect) (st1 : GlobalState)
    (h : safe_accept fd sa st trace = some (o, effs, st1)) :
    st1.cf_verbose = st.cf_verbose := by
  rw [safe_accept_eq] at h
  cases h0 : firstNonEintr trace with
  | none => rw [h0] at h; exact absurd h (by simp)
  | some o2 =>
    rw [h0, Option.some_bind] at h
    have hne := firstNonEintr_ne_eintr trace o2 h0
    cases o2 with
    | ok n =>
      revert h
      show (if st.cf_verbose > 2 then _ else _) = _ → _
      intro h
      split at h
      · obtain ⟨-, -, h3⟩ := some_triple_inj h
        rw [h3]
      · obtain ⟨-, -, h3⟩ := some_triple_inj h
        rw [h3]
    | err e =>
      cases e with
      | EINTR => exact absurd rfl hne
      | EMSGSIZE =>
        obtain ⟨-, -, h3⟩ := some_triple_inj h
        rw [h3]
      | EINPROGRESS =>
        obtain ⟨-, -, h3⟩ := some_triple_inj h
        rw [h3]
      | other n =>
        obtain ⟨-, -, h3⟩ := some_triple_inj h
        rw [h3]

/-! ### Claim C8 -/

/-- C8 is false as stated: `safe_accept`, on a successful accept with
`cf_verbose > 2`, renders the peer address through `sa2str` and thereby
overwrites `sa2str`'s process-wide static buffer. -/
theorem safe_accept_writes_static_buffer :
    (safe_accept 3 (SockAddr.unix "/tmp/sock") ⟨3, "old"⟩ [Outcome.ok 7]).map
      (fun r => r.2.2.sa2str_buf) = some "unix:/tmp/sock" ∧
    ("unix:/tmp/sock" : String) ≠ "old" := by
  refine ⟨by decide, by decide⟩

/-- C8 (amended): apart from the bounded per-call retry counter in
`safe_sendmsg` and the static `sa2str` buffer that `safe_connect` and
`safe_accept` overwrite when they render an address for a log line, the
wrappers write no process-wide or static state: the seven wrappers that
never render addresses return the global state (verbosity and static
buffer) unchanged — `safe_read`, `safe_write` and `safe_close` moreover
produce no log effects at all — and `safe_connect` and `safe_accept` never
write `cf_verbose`. -/
theorem wrappers_frame (fd len flags iovlen ctllen : Int) (sa : SockAddr)
    (st : GlobalState) (trace : List Outcome) :
    (∀ o effs st1, safe_read fd len st trace = some (o, effs, st1) →
      st1 = st ∧ effs = []) ∧
    (∀ o effs st1, safe_write fd len st trace = some (o, effs, st1) →
      st1 = st ∧ effs = []) ∧
    (∀ o effs st1, safe_close fd st trace = some (o, effs, st1) →
      st1 = st ∧ effs = []) ∧
    (∀ o effs st1, safe_recv fd len flags st trace = some (o, effs, st1) →
      st1 = st) ∧
    (∀ o effs st1, safe_send fd len flags st trace = some (o, effs, st1) →
      st1 = st) ∧
    (∀ o effs st1, safe_recvmsg fd flags st trace = some (o, effs, st1) →
      st1 = st) ∧
    (∀ o effs st1, safe_sendmsg fd iovlen ctllen flags st trace = some (o, effs, st1) →
      st1 = st) ∧
    (∀ o effs st1, safe_connect fd sa st trace = some (o, effs, st1) →
      st1.cf_verbose = st.cf_verbose) ∧
    (∀ o effs st1, safe_accept fd sa st trace = some (o, effs, st1) →
      st1.cf_verbose = st.cf_verbose) :=
  ⟨fun o effs st1 h => safe_read_state fd len st trace o effs st1 h,
    fun o effs st1 h => safe_write_state fd len st trace o effs st1 h,
    fun o effs st1 h => safe_close_state fd st trace o effs st1 h,
    fun o effs st1 h => safe_recv_state fd len flags st trace o effs st1 h,
    fun o effs st1 h => safe_send_state fd len flags st trace o effs st1 h,
    fun o effs st1 h => safe_recvmsg_state fd flags st trace o effs st1 h,
    fun o effs st1 h =>
      (safe_sendmsg_go_inv fd iovlen ctllen flags st trace 0 o effs st1 h).2,
    fun o effs st1 h => safe_connect_verbose fd sa st trace o effs st1 h,
    fun o effs st1 h => safe_accept_verbose fd sa st trace o effs st1 h⟩

/-- Witness for `wrappers_frame`: `safe_read` on a short trace returns the
state unchanged with no effects. -/
theorem wrappers_frame_witness :
    ((⟨0, "b"⟩ : GlobalState) = ⟨0, "b"⟩ ∧ ([] : List Effect) = []) := by
  have h := wrappers_frame 3 10 0 1 0 (SockAddr.other 9) ⟨0, "b"⟩
    [Outcome.err Errno.EINTR, Outcome.ok 4]
  exact h.1 (Outcome.ok 4) [] ⟨0, "b"⟩ (by decide)

end LibUsual
